import Mathlib

/-!
Verification of the agentrylab task pipeline, task scheduler, telegram
adapter and user node against their natural-language specification.

The Python sources are shallowly embedded: Python dictionaries become
association lists over a `PyVal` value model, floats become rationals,
`datetime` values become integer epoch seconds, and fallible code returns
`Option`/`Except`.  Each definition mirrors one function of the sources
(named in its doc comment).
-/

namespace AgentryLab

/-- Model of a Python value as it appears in the raw marketplace records and
schedule/checkpoint dictionaries: strings, numbers (floats and ints modelled
as rationals), dictionaries (association lists, first binding wins),
lists, booleans and `None`. -/
inductive PyVal where
  | pstr (s : String)
  | pnum (q : ℚ)
  | pdict (d : List (String × PyVal))
  | plist (l : List PyVal)
  | pbool (b : Bool)
  | pnone
  deriving Repr

/-- Python truthiness: empty strings, zero, empty containers, `False` and
`None` are falsy, everything else truthy. -/
def truthy : PyVal → Bool
  | .pstr s => !s.isEmpty
  | .pnum q => decide (q ≠ 0)
  | .pdict d => !d.isEmpty
  | .plist l => !l.isEmpty
  | .pbool b => b
  | .pnone => false

/-- Python `d.get(k)`: first binding of `k`, else `None`. -/
def dictGet (d : List (String × PyVal)) (k : String) : PyVal :=
  match d.find? (fun kv => kv.1 == k) with
  | some kv => kv.2
  | none => .pnone

/-- Python `d.get(k, dflt)`. -/
def dictGetD (d : List (String × PyVal)) (k : String) (dflt : PyVal) : PyVal :=
  match d.find? (fun kv => kv.1 == k) with
  | some kv => kv.2
  | none => dflt

/-- Python `k in d` for dictionaries. -/
def dictHasKey (d : List (String × PyVal)) (k : String) : Bool :=
  d.any (fun kv => kv.1 == k)

/-- Python `a or b` on values: `a` if truthy, else `b`. -/
def pyOr (a b : PyVal) : PyVal :=
  if truthy a then a else b

/-- Python `v == s` for a string literal `s`: true only on equal strings. -/
def pyEqStr (v : PyVal) (s : String) : Bool :=
  match v with
  | .pstr t => t == s
  | _ => false

/-- Decimal rendering of a rational; Python float formatting is approximated
(integers render exactly, which is the only case the sources rely on). -/
def ratStr (q : ℚ) : String :=
  if q.den = 1 then toString q.num else toString q.num ++ "/" ++ toString q.den

/-- Python `str(v)`.  Strings, numbers, booleans and `None` render as in
Python (integers exactly); the rendering of containers is approximated by a
fixed non-empty placeholder.  The sources only ever read truthiness or
non-emptiness off a container rendering, which the placeholder preserves
(Python renders any list or dict, even an empty one, as a non-empty
string). -/
def pyStr : PyVal → String
  | .pstr s => s
  | .pnum q => ratStr q
  | .pbool b => if b then "True" else "False"
  | .pnone => "None"
  | .plist _ => "[...]"
  | .pdict _ => "\x7b...\x7d"

/-- Whitespace trimming on character lists (Python `str.strip()` with no
argument; the stdlib `String.trim` is avoided because it does not evaluate
definitionally). -/
def trimChars (l : List Char) : List Char :=
  ((l.dropWhile Char.isWhitespace).reverse.dropWhile Char.isWhitespace).reverse

/-- Python `s.strip()`. -/
def pyStrip (s : String) : String := String.mk (trimChars s.toList)

/-- Python `s.upper()` (ASCII letters; the currency symbols the sources
uppercase are unaffected in both languages). -/
def pyUpper (s : String) : String := String.mk (s.toList.map Char.toUpper)

/-- Numeric value of a list of decimal digit characters. -/
def digitsVal (l : List Char) : ℕ :=
  l.foldl (fun a c => a * 10 + (c.toNat - '0'.toNat)) 0

/-- Python `float(s)` restricted to the strings produced by the price
cleaning step (decimal digits and at most one dot); anything else fails.
Accepts `"1."` and `".5"` like Python, rejects `""`, `"."` and
multi-dot strings. -/
def pyFloatOfDigitsDots (s : String) : Option ℚ :=
  let cs := s.toList
  if cs.all (fun c => c.isDigit || c == '.')
      && cs.count '.' ≤ 1
      && cs.any (fun c => c.isDigit) then
    let ip := cs.takeWhile (fun c => c != '.')
    let fp := (cs.dropWhile (fun c => c != '.')).drop 1
    some ((digitsVal ip : ℚ) + (digitsVal fp : ℚ) / (10 : ℚ) ^ fp.length)
  else
    none

/-- Python `int(s)` on a string: optional sign then decimal digits,
surrounding whitespace stripped. -/
def pyIntOfString (s : String) : Option ℤ :=
  let cs := trimChars s.toList
  match cs with
  | '-' :: rest =>
      if rest ≠ [] ∧ rest.all Char.isDigit then some (-(digitsVal rest : ℤ)) else none
  | '+' :: rest =>
      if rest ≠ [] ∧ rest.all Char.isDigit then some ((digitsVal rest : ℤ)) else none
  | rest =>
      if rest ≠ [] ∧ rest.all Char.isDigit then some ((digitsVal rest : ℤ)) else none

/-- Truncation of a rational toward zero, as Python `int(float)`. -/
def ratTrunc (q : ℚ) : ℤ :=
  if 0 ≤ q then ⌊q⌋ else -⌊-q⌋

/-- Python `int(v)`: numbers truncate, strings parse as integers, booleans
map to 0/1, and other values raise (modelled as `none`). -/
def pyInt : PyVal → Option ℤ
  | .pnum q => some (ratTrunc q)
  | .pstr s => pyIntOfString s
  | .pbool b => some (if b then 1 else 0)
  | _ => none

/-- Python `float(v)` for a general value: numbers pass through, strings are
parsed (only the unsigned decimal shapes the sources feed it), booleans map
to 0/1, other values raise (`none`). -/
def pyFloat : PyVal → Option ℚ
  | .pnum q => some q
  | .pstr s => pyFloatOfDigitsDots (pyStrip s)
  | .pbool b => some (if b then 1 else 0)
  | _ => none

/-- Substring test `needle in hay` on Python strings. -/
def strContains (hay needle : String) : Bool :=
  (List.range (hay.toList.length + 1)).any
    (fun i => needle.toList.isPrefixOf (hay.toList.drop i))

/-- Posting date of a listing: either an epoch timestamp
(`datetime.fromtimestamp`) or a calendar date-time parsed by `strptime`. -/
inductive PostedAt where
  | epoch (q : ℚ)
  | dt (year month day hour minute second : ℕ)
  deriving Repr

/-- The `Listing` dataclass of `runtime/tasks/sources.py`: the normalized
marketplace record.  Floats are rationals; `location`, `seller` and
`raw_data` keep their Python-dictionary shape. -/
structure Listing where
  id : String
  title : String
  price : ℚ
  currency : String
  url : String
  images : List String := []
  postedAt : Option PostedAt := none
  location : Option (List (String × PyVal)) := none
  seller : Option (List (String × PyVal)) := none
  rawData : Option (List (String × PyVal)) := none
  deriving Repr

/-- Scan for the regex `/item/(\d+)`: the leftmost occurrence of the literal
`/item/` followed by at least one digit; returns the maximal digit run. -/
def itemIdSearch : List Char → Option String
  | [] => none
  | c :: rest =>
    match c :: rest with
    | '/' :: 'i' :: 't' :: 'e' :: 'm' :: '/' :: r =>
        let run := r.takeWhile Char.isDigit
        if run.isEmpty then itemIdSearch rest else some (String.mk run)
    | _ => itemIdSearch rest

/-- Scan for the regex `/(\d+)/`: the leftmost `/` followed by at least one
digit and a closing `/`; returns the digit run. -/
def slashNumSlashSearch : List Char → Option String
  | [] => none
  | '/' :: r =>
      let run := r.takeWhile Char.isDigit
      if !run.isEmpty && (match r.drop run.length with
                          | '/' :: _ => true
                          | _ => false) then
        some (String.mk run)
      else
        slashNumSlashSearch r
  | _ :: r => slashNumSlashSearch r

/-- FacebookMarketplaceNormalizer._extract_id: try the `id`, `listingId` and
`listingUrl` fields in order (extracting `/item/<digits>` from a listing
URL), then fall back to digits between slashes of any URL, else `None`. -/
def extractId (item : List (String × PyVal)) : Option String :=
  if truthy (dictGet item "id") then
    some (pyStr (dictGet item "id"))
  else if truthy (dictGet item "listingId") then
    some (pyStr (dictGet item "listingId"))
  else if truthy (dictGet item "listingUrl") then
    let v := dictGet item "listingUrl"
    match itemIdSearch (pyStr v).toList with
    | some g => some g
    | none => some (pyStr v)
  else
    let url := pyOr (dictGet item "listingUrl") (dictGet item "facebookUrl")
    if truthy url then
      match slashNumSlashSearch (pyStr url).toList with
      | some g => some g
      | none => some (pyStr url)
    else
      none

/-- FacebookMarketplaceNormalizer._extract_title: first truthy of five
title-ish fields, stripped; `None` when all are falsy. -/
def extractTitle (item : List (String × PyVal)) : Option String :=
  let t := pyOr (dictGet item "marketplace_listing_title")
      (pyOr (dictGet item "custom_title")
        (pyOr (dictGet item "title")
          (pyOr (dictGet item "name") (dictGet item "text"))))
  if truthy t then some (pyStrip (pyStr t)) else none

/-- FacebookMarketplaceNormalizer._extract_price: pick the price field
(`listing_price.formatted_amount`/`amount` when `listing_price` is a truthy
dict, else `price`/`priceText`/`formatted_amount`), bail out on a falsy
value, strip everything but digits, dots and commas, drop the commas, and
parse as a float. -/
def extractPrice (item : List (String × PyVal)) : Option ℚ :=
  let priceData := dictGet item "listing_price"
  let priceStrV :=
    match priceData with
    | .pdict d =>
        if truthy (.pdict d) then
          pyOr (dictGet d "formatted_amount") (dictGet d "amount")
        else
          pyOr (dictGet item "price")
            (pyOr (dictGet item "priceText") (dictGet item "formatted_amount"))
    | _ =>
        pyOr (dictGet item "price")
          (pyOr (dictGet item "priceText") (dictGet item "formatted_amount"))
  if !truthy priceStrV then
    none
  else
    let s := pyStrip (pyStr priceStrV)
    let kept := s.toList.filter (fun c => c.isDigit || c == '.' || c == ',')
    let cleaned := kept.filter (fun c => c != ',')
    pyFloatOfDigitsDots (String.mk cleaned)

/-- Symbol-to-currency table of `_extract_currency`, in source order. -/
def currencyMap : List (String × String) :=
  [("$", "USD"), ("€", "EUR"), ("£", "GBP"), ("₪", "ILS"), ("₽", "RUB"),
   ("¥", "JPY"), ("USD", "USD"), ("EUR", "EUR"), ("GBP", "GBP"),
   ("ILS", "ILS"), ("RUB", "RUB"), ("JPY", "JPY")]

/-- First currency of `currencyMap` whose symbol occurs in the text. -/
def firstCurrency (t : String) : List (String × String) → String
  | [] => "USD"
  | (sym, cur) :: rest => if strContains t sym then cur else firstCurrency t rest

/-- FacebookMarketplaceNormalizer._extract_currency: look at the formatted
price text, uppercase it, and return the first matching symbol's currency,
defaulting to `"USD"`.  Always returns a non-empty code. -/
def extractCurrency (item : List (String × PyVal)) : String :=
  let priceData := dictGet item "listing_price"
  let priceText :=
    match priceData with
    | .pdict d =>
        if truthy (.pdict d) then dictGetD d "formatted_amount" (.pstr "")
        else pyOr (dictGet item "price") (dictGetD item "priceText" (.pstr ""))
    | _ => pyOr (dictGet item "price") (dictGetD item "priceText" (.pstr ""))
  if !truthy priceText then "USD"
  else firstCurrency (pyUpper (pyStr priceText)) currencyMap

/-- FacebookMarketplaceNormalizer._extract_url: first truthy of
`listingUrl`, `facebookUrl`, `url`, `link`, stripped; else `None`. -/
def extractUrl (item : List (String × PyVal)) : Option String :=
  let u := pyOr (dictGet item "listingUrl")
      (pyOr (dictGet item "facebookUrl")
        (pyOr (dictGet item "url") (dictGet item "link")))
  if truthy u then some (pyStrip (pyStr u)) else none

/-- Image URLs collected from one image field value: a list contributes
`str(img)` for each truthy element, a string contributes itself. -/
def imagesOfField : PyVal → List String
  | .plist l => (l.filter truthy).map pyStr
  | .pstr s => [s]
  | _ => []

/-- Deduplication keeping first occurrences.  Python materialises
`list(set(...))`, whose order is unspecified; a canonical order is chosen. -/
def dedupKeepFirst : List String → List String
  | [] => []
  | s :: rest => s :: ((dedupKeepFirst rest).filter (fun t => t != s))

/-- FacebookMarketplaceNormalizer._extract_images: the primary listing photo
URL followed by the values of the `images`, `imageUrls`, `photos` and
`picture` fields, with falsy entries removed and duplicates dropped. -/
def extractImages (item : List (String × PyVal)) : List String :=
  let primary : List String :=
    match dictGet item "primary_listing_photo" with
    | .pdict d =>
        if truthy (.pdict d) then
          let photoUrl := dictGet d "photo_image_url"
          if truthy photoUrl then [pyStr photoUrl] else []
        else []
    | _ => []
  let rest : List String :=
    (["images", "imageUrls", "photos", "picture"].map
      (fun f => if truthy (dictGet item f) then imagesOfField (dictGet item f) else [])).flatten
  dedupKeepFirst ((primary ++ rest).filter (fun s => !s.isEmpty))

/-- Exactly `n` decimal digits from the front of the input; returns the
value and the remainder. -/
def takeDigitsExact (n : ℕ) (l : List Char) : Option (ℕ × List Char) :=
  if (l.take n).length = n ∧ (l.take n).all Char.isDigit then
    some (digitsVal (l.take n), l.drop n)
  else none

/-- One- or two-digit field in `[lo, hi]`, preferring the two-digit form, as
the `strptime` field regexes do. -/
def takeNum2 (lo hi : ℕ) (l : List Char) : Option (ℕ × List Char) :=
  match l with
  | c1 :: c2 :: rest =>
      if c1.isDigit && c2.isDigit && lo ≤ digitsVal [c1, c2] && digitsVal [c1, c2] ≤ hi then
        some (digitsVal [c1, c2], rest)
      else if c1.isDigit && lo ≤ digitsVal [c1] && digitsVal [c1] ≤ hi then
        some (digitsVal [c1], c2 :: rest)
      else none
  | [c1] =>
      if c1.isDigit && lo ≤ digitsVal [c1] && digitsVal [c1] ≤ hi then
        some (digitsVal [c1], [])
      else none
  | [] => none

/-- Literal separator character. -/
def takeChar (c : Char) (l : List Char) : Option (List Char) :=
  match l with
  | d :: rest => if d == c then some rest else none
  | [] => none

/-- Days in a month with the Gregorian leap rule, as `datetime` validates. -/
def daysInMonth (y m : ℕ) : ℕ :=
  if m = 2 then
    if y % 4 = 0 ∧ (y % 100 ≠ 0 ∨ y % 400 = 0) then 29 else 28
  else if m = 4 ∨ m = 6 ∨ m = 9 ∨ m = 11 then 30
  else 31

/-- Model of `datetime.strptime(s, "%Y-%m-%d")` (4-digit year, 1-2 digit
month and day, full-string match, calendar-valid day). -/
def strpYmd (s : String) : Option PostedAt :=
  match takeDigitsExact 4 s.toList with
  | none => none
  | some (y, r1) =>
    match takeChar '-' r1 with
    | none => none
    | some r2 =>
      match takeNum2 1 12 r2 with
      | none => none
      | some (mo, r3) =>
        match takeChar '-' r3 with
        | none => none
        | some r4 =>
          match takeNum2 1 31 r4 with
          | none => none
          | some (d, r5) =>
            if r5 = [] ∧ d ≤ daysInMonth y mo then some (.dt y mo d 0 0 0) else none

/-- Model of `datetime.strptime(s, "%Y-%m-%d<sep>%H:%M:%S")` with `sep`
either `'T'` or `' '`. -/
def strpYmdHms (sep : Char) (s : String) : Option PostedAt :=
  match takeDigitsExact 4 s.toList with
  | none => none
  | some (y, r1) =>
    match takeChar '-' r1 with
    | none => none
    | some r2 =>
      match takeNum2 1 12 r2 with
      | none => none
      | some (mo, r3) =>
        match takeChar '-' r3 with
        | none => none
        | some r4 =>
          match takeNum2 1 31 r4 with
          | none => none
          | some (d, r5) =>
            match takeChar sep r5 with
            | none => none
            | some r6 =>
              match takeNum2 0 23 r6 with
              | none => none
              | some (h, r7) =>
                match takeChar ':' r7 with
                | none => none
                | some r8 =>
                  match takeNum2 0 59 r8 with
                  | none => none
                  | some (mi, r9) =>
                    match takeChar ':' r9 with
                    | none => none
                    | some r10 =>
                      match takeNum2 0 59 r10 with
                      | none => none
                      | some (sec, r11) =>
                        if r11 = [] ∧ d ≤ daysInMonth y mo then
                          some (.dt y mo d h mi sec)
                        else none

/-- Date value of one field: numbers (and booleans, which Python treats as
ints) become epoch timestamps; strings are tried against the three
`strptime` formats in source order. -/
def postedAtOfField : PyVal → Option PostedAt
  | .pnum q => some (.epoch q)
  | .pbool b => some (.epoch (if b then 1 else 0))
  | .pstr s =>
      match strpYmd s with
      | some v => some v
      | none =>
        match strpYmdHms 'T' s with
        | some v => some v
        | none => strpYmdHms ' ' s
  | _ => none

/-- FacebookMarketplaceNormalizer._extract_posted_at: first of the
`postedAt`, `createdAt`, `date`, `timestamp` fields that is truthy and
yields a date. -/
def extractPostedAt (item : List (String × PyVal)) : Option PostedAt :=
  (["postedAt", "createdAt", "date", "timestamp"].map
    (fun f => if truthy (dictGet item f) then postedAtOfField (dictGet item f) else none)).foldl
    (fun acc o => match acc with | some v => some v | none => o) none

/-- Python `v is not None`. -/
def isNotNone : PyVal → Bool
  | .pnone => false
  | _ => true

/-- FacebookMarketplaceNormalizer._extract_location: build a location dict
from the Apify reverse-geocode structure, falling back to direct
`city`/`area` fields, then append coordinates and distance when they convert
to floats (a failing longitude still keeps a converted latitude, as the
Python try block assigns `lat` first). -/
def extractLocation (item : List (String × PyVal)) : Option (List (String × PyVal)) :=
  let fromGeo : List (String × PyVal) :=
    match dictGet item "location" with
    | .pdict d =>
        if truthy (.pdict d) then
          match dictGet d "reverse_geocode" with
          | .pdict rg =>
              if truthy (.pdict rg) then
                let city := dictGet rg "city"
                let state := dictGet rg "state"
                let cityPart := if truthy city then [("city", PyVal.pstr (pyStrip (pyStr city)))] else []
                let statePart := if truthy state then [("state", PyVal.pstr (pyStrip (pyStr state)))] else []
                let fullPart :=
                  match dictGet rg "city_page" with
                  | .pdict cp =>
                      if truthy (.pdict cp) then
                        let dn := dictGet cp "display_name"
                        if truthy dn then [("full_name", PyVal.pstr (pyStrip (pyStr dn)))] else []
                      else []
                  | _ => []
                cityPart ++ statePart ++ fullPart
              else []
          | _ => []
        else []
    | _ => []
  let base :=
    if fromGeo.isEmpty then
      let city := pyOr (dictGet item "city") (dictGet item "area")
      if truthy city then [("city", PyVal.pstr (pyStrip (pyStr city)))] else []
    else fromGeo
  let lat := pyOr (dictGet item "latitude") (dictGet item "lat")
  let lon := pyOr (dictGet item "longitude") (pyOr (dictGet item "lng") (dictGet item "lon"))
  let withCoords :=
    if isNotNone lat && isNotNone lon then
      match pyFloat lat with
      | none => base
      | some la =>
        match pyFloat lon with
        | none => base ++ [("lat", PyVal.pnum la)]
        | some lo => base ++ [("lat", PyVal.pnum la), ("lon", PyVal.pnum lo)]
    else base
  let dist := pyOr (dictGet item "distance") (dictGet item "distanceKm")
  let withDist :=
    if isNotNone dist then
      match pyFloat dist with
      | none => withCoords
      | some dq => withCoords ++ [("distance_km", PyVal.pnum dq)]
    else withCoords
  if withDist.isEmpty then none else some withDist

/-- FacebookMarketplaceNormalizer._extract_seller: seller name and URL from
the Apify seller structure, falling back to direct fields, plus a numeric
rating when it converts to a float. -/
def extractSeller (item : List (String × PyVal)) : Option (List (String × PyVal)) :=
  let fromData : List (String × PyVal) :=
    match dictGet item "marketplace_listing_seller" with
    | .pdict d =>
        if truthy (.pdict d) then
          let nm := pyOr (dictGet d "name") (dictGet d "display_name")
          let ur := pyOr (dictGet d "url") (dictGet d "profile_url")
          (if truthy nm then [("name", PyVal.pstr (pyStrip (pyStr nm)))] else []) ++
          (if truthy ur then [("url", PyVal.pstr (pyStrip (pyStr ur)))] else [])
        else []
    | _ => []
  let base :=
    if fromData.isEmpty then
      let nm := pyOr (dictGet item "sellerName") (pyOr (dictGet item "seller") (dictGet item "author"))
      let ur := pyOr (dictGet item "sellerUrl") (dictGet item "sellerProfile")
      (if truthy nm then [("name", PyVal.pstr (pyStrip (pyStr nm)))] else []) ++
      (if truthy ur then [("url", PyVal.pstr (pyStrip (pyStr ur)))] else [])
    else fromData
  let rating := pyOr (dictGet item "sellerRating") (dictGet item "rating")
  let withRating :=
    if isNotNone rating then
      match pyFloat rating with
      | none => base
      | some rq => base ++ [("rating", PyVal.pnum rq)]
    else base
  if withRating.isEmpty then none else some withRating

/-- Truthiness of an `Optional[str]` as Python's `all` sees it: `None` and
the empty string are falsy. -/
def optStrTruthy : Option String → Bool
  | some s => !s.isEmpty
  | none => false

/-- Truthiness of an `Optional[float]`: `None` and `0.0` are falsy. -/
def optRatTruthy : Option ℚ → Bool
  | some q => decide (q ≠ 0)
  | none => false

/-- FacebookMarketplaceNormalizer._normalize_item: extract the required
fields and drop the record (`None`) unless all of
`[listing_id, title, price, currency, url]` are truthy — in particular a
price of exactly `0.0` is falsy and the record is dropped. -/
def normalizeItem (item : List (String × PyVal)) : Option Listing :=
  let listingId := extractId item
  let title := extractTitle item
  let price := extractPrice item
  let currency := extractCurrency item
  let url := extractUrl item
  if optStrTruthy listingId && optStrTruthy title && optRatTruthy price &&
      !currency.isEmpty && optStrTruthy url then
    some {
      id := listingId.getD ""
      title := title.getD ""
      price := price.getD 0
      currency := currency
      url := url.getD ""
      images := extractImages item
      postedAt := extractPostedAt item
      location := extractLocation item
      seller := extractSeller item
      rawData := some item }
  else
    none

/-- FacebookMarketplaceNormalizer.normalize: normalize each raw record,
keeping the successes; per-record failures are caught and skipped
(modelled by `normalizeItem` being total and `filterMap` dropping `none`). -/
def fbNormalize (rawData : List (List (String × PyVal))) : List Listing :=
  rawData.filterMap normalizeItem

/-- Processing parameters read by `TaskManager._process_listings` via
`params.get`: an absent `min_price` defaults to `0`, an absent `max_price`
to `float('inf')` (modelled as no upper bound), an absent `currency` to
`"USD"` and an absent `top_n` to `5`. -/
structure ProcParams where
  minPrice : Option ℚ := none
  maxPrice : Option ℚ := none
  currency : Option String := none
  topN : Option ℕ := none

/-- Price ordering used by `filtered.sort(key=lambda x: x.price)`. -/
def priceLE (a b : Listing) : Prop := a.price ≤ b.price

instance : DecidableRel priceLE :=
  fun a b => inferInstanceAs (Decidable (a.price ≤ b.price))

instance : IsTotal Listing priceLE := ⟨fun a b => le_total a.price b.price⟩

instance : IsTrans Listing priceLE := ⟨fun _ _ _ => le_trans⟩

/-- Filter condition of `_process_listings`: currency matches the target and
`min_price <= price <= max_price` (no upper test when `max_price` is the
infinite default). -/
def listingPasses (p : ProcParams) (x : Listing) : Bool :=
  x.currency == p.currency.getD "USD" &&
  decide (p.minPrice.getD 0 ≤ x.price) &&
  (match p.maxPrice with
   | none => true
   | some m => decide (x.price ≤ m))

/-- TaskManager._process_listings: keep the listings in the target currency
and price range, sort ascending by price (Python's sort is stable, modelled
by a stable insertion sort), and return the first `top_n`. -/
def processListings (listings : List Listing) (p : ProcParams) : List Listing :=
  ((listings.filter (listingPasses p)).insertionSort priceLE).take (p.topN.getD 5)

/-- Task schedule evaluation: current wakeup times and `last_run` are epoch
seconds (`datetime` differences in the source become integer differences),
and `croniter(expr, base).get_next(datetime)` is abstracted by a
`nextTick : ℤ → ℤ` function giving the first cron tick strictly after the
base time of the given valid cron expression. -/
def minRerunGuardSeconds : ℤ := 300

/-- TaskManager._check_cron_schedule: bail out on a falsy cron expression,
otherwise take `last_run = current_time - 1 hour` (the source's MVP
approximation) and fire iff the next tick after it is at most `now`. -/
def checkCronSchedule (nextTick : ℤ → ℤ) (schedule : List (String × PyVal)) (now : ℤ) : Bool :=
  let cronExpr := dictGet schedule "value"
  if !truthy cronExpr then false
  else decide (nextTick (now - 3600) ≤ now)

/-- TaskManager._check_interval_schedule: parse the interval value as an int
(failure is caught and yields `False`) and then return `True`
unconditionally — the source's MVP simplification ignores the interval. -/
def checkIntervalSchedule (schedule : List (String × PyVal)) : Bool :=
  (pyInt (dictGetD schedule "value" (.pnum 3600))).isSome

/-- TaskManager._should_run_task: refuse to fire when the last run is less
than 5 minutes old, then dispatch on the schedule type (default
`"interval"`); unknown types never fire. -/
def shouldRunTask (nextTick : ℤ → ℤ) (schedule : List (String × PyVal))
    (lastRun : Option ℤ) (now : ℤ) : Bool :=
  let blocked :=
    match lastRun with
    | some lr => decide (now - lr < minRerunGuardSeconds)
    | none => false
  if blocked then false
  else
    let scheduleType := dictGetD schedule "type" (.pstr "interval")
    if pyEqStr scheduleType "cron" then checkCronSchedule nextTick schedule now
    else if pyEqStr scheduleType "interval" then checkIntervalSchedule schedule
    else false

/-- State of the in-flight bookkeeping of `TaskManager`: the task ids with
an entry in `active_futures` (insertion order kept), plus the id the single
scheduler thread has just found absent but not yet inserted (between the
`task_id in self.active_futures` test of `_scheduler_loop` and the
insertion in `_execute_task`). -/
structure SchedState where
  inFlight : List String
  pending : Option String
  deriving Repr, DecidableEq

/-- Interleaved transitions of the scheduler loop and the worker threads,
parameterised by the firing decision `fire` (task enabled and
`_should_run_task` true at the wakeup).  `check` is the scheduler thread
passing the `active_futures` membership test, `submit` is `_execute_task`
inserting the future, and `finish` is the `finally` block of `_run_task`
deleting the entry when the execution ends. -/
inductive SchedStep (fire : String → Prop) : SchedState → SchedState → Prop where
  | check (s : SchedState) (id : String) (hp : s.pending = none)
      (hnin : id ∉ s.inFlight) (hf : fire id) :
      SchedStep fire s ⟨s.inFlight, some id⟩
  | submit (s : SchedState) (id : String) (hp : s.pending = some id) :
      SchedStep fire s ⟨s.inFlight ++ [id], none⟩
  | finish (s : SchedState) (id : String) (hin : id ∈ s.inFlight) :
      SchedStep fire s ⟨s.inFlight.erase id, s.pending⟩

/-- States of the scheduler loop reachable from the start state (no active
futures, no pending submission). -/
inductive SchedReachable (fire : String → Prop) : SchedState → Prop where
  | init : SchedReachable fire ⟨[], none⟩
  | step {s t : SchedState} : SchedReachable fire s → SchedStep fire s t →
      SchedReachable fire t

/-- Errors raised by `TelegramAdapter.start_conversation`.  The adapter's
exceptions module is not among the sources; its error names are taken from
the spec's taxonomy (§7), which also lists `CapacityError` — the adapter
code itself raises a plain `RuntimeError` at capacity. -/
inductive StartError where
  | conversationAlreadyExists
  | invalidPreset
  | runtimeError (msg : String)
  | capacityError
  deriving Repr, DecidableEq

/-- Conversation status values of `telegram/models.py`. -/
inductive ConversationStatus where
  | active | paused | stopped | completed | error
  deriving Repr, DecidableEq

/-- ConversationState of `telegram/models.py` (the fields
`start_conversation` populates), with the Lab instance abstracted. -/
structure ConversationState (Lab : Type) where
  conversationId : String
  presetId : String
  topic : String
  userId : String
  status : ConversationStatus
  lab : Lab
  deriving DecidableEq

/-- Adapter state relevant to `start_conversation`: the conversation map
(insertion order kept) and the capacity bound. -/
structure AdapterState (Lab : Type) where
  maxConcurrentConversations : ℕ
  conversations : List (String × ConversationState Lab)
  deriving DecidableEq

/-- Outcome of `agentrylab.init(preset_id, ...)`, which is outside the core:
either a Lab instance or any exception. -/
inductive InitOutcome (Lab : Type) where
  | ok (lab : Lab)
  | failed
  deriving DecidableEq

/-- TelegramAdapter.start_conversation with an explicitly supplied
conversation id: duplicate id ⇒ `ConversationAlreadyExistsError`; at
capacity ⇒ a plain `RuntimeError`; a failing `init` ⇒ `InvalidPresetError`;
otherwise the conversation is stored as active and the id returned.  The
second component is the conversation map after the call (unchanged on every
error). -/
def startConversation {Lab : Type} (st : AdapterState Lab)
    (presetId topic userId conversationId : String)
    (initRes : InitOutcome Lab) :
    Except StartError String × AdapterState Lab :=
  if st.conversations.any (fun kv => kv.1 == conversationId) then
    (.error .conversationAlreadyExists, st)
  else if st.maxConcurrentConversations ≤ st.conversations.length then
    (.error (.runtimeError "Maximum concurrent conversations reached"), st)
  else
    match initRes with
    | .ok lab =>
        (.ok conversationId,
          { st with conversations := st.conversations ++
              [(conversationId,
                { conversationId := conversationId, presetId := presetId,
                  topic := topic, userId := userId,
                  status := .active, lab := lab })] })
    | .failed => (.error .invalidPreset, st)

/-- Outcome of `Store.load_checkpoint(conversation_id)` as observed by the
adapter: the store (outside the core sources) either raises or returns a
value (`PyVal.pnone` when no checkpoint exists). -/
inductive LoadResult where
  | raised
  | value (v : PyVal)

/-- TelegramAdapter.can_resume_conversation: true iff loading the
checkpoint yields a non-empty dict without the `_pickled` marker key; a
raising load or any non-dict (including `None`) yields false. -/
def canResumeConversation (r : LoadResult) : Bool :=
  match r with
  | .raised => false
  | .value v =>
    match v with
    | .pdict d => !d.isEmpty && !dictHasKey d "_pickled"
    | _ => false

/-- NodeOutput of `runtime/nodes/base.py` (the fields `UserNode` sets). -/
structure NodeOutput where
  role : String
  content : String
  deriving Repr, DecidableEq

/-- Per-thread user-input queues of the conversation state, keyed by user
node id (FIFO). -/
structure UserQueues where
  queues : List (String × List String)
  deriving Repr, DecidableEq

/-- State.pop_user_input(user_node_id): dequeue the next queued message for
the given user node id, `none` when the queue is empty or absent. -/
def popUserInput (st : UserQueues) (uid : String) : Option String × UserQueues :=
  match st.queues.find? (fun kv => kv.1 == uid) with
  | some (_, m :: rest) =>
      (some m, ⟨st.queues.map (fun kv => if kv.1 == uid then (kv.1, rest) else kv)⟩)
  | _ => (none, st)

/-- UserNode configuration: the node id (`getattr(self.cfg, "id", "user")`). -/
structure UserCfg where
  id : String
  deriving Repr, DecidableEq

/-- UserNode of `runtime/nodes/user.py`: holds its config plus provider and
tool references that are stored only for API parity. -/
structure UserNode (Provider Tool : Type) where
  cfg : UserCfg
  provider : Option Provider
  tools : List (String × Tool)

/-- UserNode.__call__: dequeue with `state.pop_user_input(self.cfg.id)`,
substitute the empty string when no message is queued, and emit a
`role="user"` output; the provider and tools are never consulted. -/
def userNodeCall {Provider Tool : Type} (n : UserNode Provider Tool)
    (st : UserQueues) : NodeOutput × UserQueues :=
  let popped := popUserInput st n.cfg.id
  ({ role := "user", content := (popped.1).getD "" }, popped.2)

/-- Raw record used to exercise the normalizer on a successful path. -/
def rawGoodItem : List (String × PyVal) :=
  [("id", .pstr "123"), ("title", .pstr "Couch"),
   ("listingUrl", .pstr "https://fb.com/item/123"), ("price", .pstr "$12.50")]

/-- The listing the normalizer produces from `rawGoodItem`. -/
def rawGoodListing : Listing :=
  { id := "123", title := "Couch", price := 25 / 2, currency := "USD",
    url := "https://fb.com/item/123", images := [], postedAt := none,
    location := none, seller := none, rawData := some rawGoodItem }

/-- Raw record of a free listing: all required fields present, price `$0`. -/
def rawFreeItem : List (String × PyVal) :=
  [("id", .pstr "123"), ("title", .pstr "Free couch"),
   ("listingUrl", .pstr "https://fb.com/item/123"), ("price", .pstr "$0")]

/-- Demo listing used by the task-pipeline scenario: `USD` currency and the
given price. -/
def demoListing (i : String) (q : ℚ) : Listing :=
  { id := i, title := "Item " ++ i, price := q, currency := "USD",
    url := "https://example.com/item/" ++ i }

/-- The three normalized records of the task-pipeline scenario. -/
def demoListings : List Listing :=
  [demoListing "a" 10, demoListing "b" 200, demoListing "c" 50]

/-- The processor params of the task-pipeline scenario. -/
def demoParams : ProcParams :=
  { minPrice := some 0, maxPrice := some 100, currency := some "USD", topN := some 5 }

/-- Schedule dictionary with the given type and optional value entry. -/
def mkSchedule (stype : String) (value : Option PyVal) : List (String × PyVal) :=
  match value with
  | some v => [("type", .pstr stype), ("value", v)]
  | none => [("type", .pstr stype)]

/-- Guard of `_should_run_task`: fire only when no previous run is recorded
or the previous run is at least 5 minutes old. -/
def rerunGuardPasses (lastRun : Option ℤ) (now : ℤ) : Bool :=
  match lastRun with
  | some lr => decide (minRerunGuardSeconds ≤ now - lr)
  | none => true

/-- Next tick of the cron schedule `30 * * * *` (minute 30 of every hour)
strictly after time `t`, with times in epoch seconds. -/
def halfHourTick (t : ℤ) : ℤ :=
  t + (1800 - t - 1) % 3600 + 1

/-- A string whose `isEmpty` test is false is not the empty string. -/
theorem ne_empty_of_isEmpty_false (s : String) (h : s.isEmpty = false) : s ≠ "" := by
  intro he
  rw [he] at h
  exact absurd h (by simp [String.isEmpty_iff ""])

/-- The float parser only produces non-negative values: the cleaned price
string contains no sign, so the parsed value is a sum of natural parts. -/
theorem pyFloatOfDigitsDots_nonneg (s : String) (q : ℚ)
    (h : pyFloatOfDigitsDots s = some q) : 0 ≤ q := by
  simp only [pyFloatOfDigitsDots] at h
  split at h
  · obtain rfl : _ = q := Option.some.inj h
    positivity
  · exact absurd h (by simp)

/-- Any price `_extract_price` produces is non-negative. -/
theorem extractPrice_nonneg (item : List (String × PyVal)) (q : ℚ)
    (h : extractPrice item = some q) : 0 ≤ q := by
  simp only [extractPrice] at h
  split at h
  · exact absurd h (by simp)
  · exact pyFloatOfDigitsDots_nonneg _ _ h

/-- Every listing `_normalize_item` emits passed the truthiness gate on
`[listing_id, title, price, currency, url]`, so its string fields are
non-empty and its price is non-negative (indeed non-zero). -/
theorem normalizeItem_some_fields (item : List (String × PyVal)) (l : Listing)
    (h : normalizeItem item = some l) :
    l.id ≠ "" ∧ l.title ≠ "" ∧ l.url ≠ "" ∧ l.currency ≠ "" ∧ 0 ≤ l.price := by
  simp only [normalizeItem] at h
  split at h
  case isFalse => exact absurd h (by simp)
  case isTrue hg =>
    simp only [Bool.and_eq_true] at hg
    obtain ⟨⟨⟨⟨hid, htitle⟩, hprice⟩, hcur⟩, hurl⟩ := hg
    obtain rfl : _ = l := Option.some.inj h
    refine ⟨?_, ?_, ?_, ?_, ?_⟩
    · cases hE : extractId item with
      | none => rw [hE] at hid; exact absurd hid (by simp [optStrTruthy])
      | some s =>
          rw [hE] at hid
          simp only [optStrTruthy, Bool.not_eq_true'] at hid
          simpa [hE] using ne_empty_of_isEmpty_false s hid
    · cases hE : extractTitle item with
      | none => rw [hE] at htitle; exact absurd htitle (by simp [optStrTruthy])
      | some s =>
          rw [hE] at htitle
          simp only [optStrTruthy, Bool.not_eq_true'] at htitle
          simpa [hE] using ne_empty_of_isEmpty_false s htitle
    · cases hE : extractUrl item with
      | none => rw [hE] at hurl; exact absurd hurl (by simp [optStrTruthy])
      | some s =>
          rw [hE] at hurl
          simp only [optStrTruthy, Bool.not_eq_true'] at hurl
          simpa [hE] using ne_empty_of_isEmpty_false s hurl
    · simp only [Bool.not_eq_true'] at hcur
      exact ne_empty_of_isEmpty_false _ hcur
    · cases hE : extractPrice item with
      | none => rw [hE] at hprice; exact absurd hprice (by simp [optRatTruthy])
      | some q =>
          simpa [hE] using extractPrice_nonneg item q hE

/-- C9: every Listing emitted by `FacebookMarketplaceNormalizer.normalize`
has non-empty id, title, url and currency and a non-negative price, and
records that fail normalization are dropped, so the output is never longer
than the input (and `normalize`, modelled as a total function, never
raises). -/
theorem fb_normalize_output_invariants (raw : List (List (String × PyVal))) :
    (∀ l ∈ fbNormalize raw,
        l.id ≠ "" ∧ l.title ≠ "" ∧ l.url ≠ "" ∧ l.currency ≠ "" ∧ 0 ≤ l.price)
    ∧ (fbNormalize raw).length ≤ raw.length := by
  constructor
  · intro l hl
    obtain ⟨item, _, hitem⟩ := List.mem_filterMap.mp hl
    exact normalizeItem_some_fields item l hitem
  · exact List.length_filterMap_le _ _

/-- Witness for C9: the invariants hold on the concrete normalized record of
`rawGoodItem`. -/
theorem fb_normalize_output_invariants_witness :
    (rawGoodListing.id ≠ "" ∧ rawGoodListing.title ≠ "" ∧ rawGoodListing.url ≠ ""
      ∧ rawGoodListing.currency ≠ "" ∧ 0 ≤ rawGoodListing.price)
    ∧ (fbNormalize [rawGoodItem]).length ≤ [rawGoodItem].length :=
  ⟨(fb_normalize_output_invariants [rawGoodItem]).1 rawGoodListing
      (by rw [show fbNormalize [rawGoodItem] = [rawGoodListing] by with_unfolding_all rfl]
          exact List.mem_singleton_self _),
    (fb_normalize_output_invariants [rawGoodItem]).2⟩

/-- C10: a raw item whose extracted price is exactly `0.0` is dropped by
`_normalize_item`, whatever its other fields hold: `0.0` is falsy in the
`all([...])` gate. -/
theorem normalizeItem_drops_zero_price (item : List (String × PyVal))
    (h : extractPrice item = some 0) : normalizeItem item = none := by
  unfold normalizeItem
  simp [h, optRatTruthy]

/-- Witness for C10: the concrete free listing parses to price `0` and is
dropped. -/
theorem normalizeItem_drops_zero_price_witness :
    extractPrice rawFreeItem = some 0 ∧ normalizeItem rawFreeItem = none :=
  ⟨by with_unfolding_all rfl, normalizeItem_drops_zero_price rawFreeItem (by with_unfolding_all rfl)⟩

/-- C1: `_process_listings` returns only listings from the input that match
the currency and price-range filter, sorted ascending by price, with length
`min top_n (number of matches)`; when `top_n` does not truncate, the output
is exactly (a permutation of) the matching listings; in every case the
output is a prefix of the ascending stable sort of the matching listings,
which together with the length pins it to exactly the first (lowest-priced)
`top_n` of the sorted matches; and on the concrete scenario with prices
10, 200, 50 USD and params `min_price 0`, `max_price 100`, `currency USD`,
`top_n 5` the output is the listings priced 10 and 50, in that order. -/
theorem process_listings_spec (listings : List Listing) (p : ProcParams) :
    (∀ x ∈ processListings listings p, x ∈ listings ∧ listingPasses p x = true)
    ∧ (processListings listings p).Sorted priceLE
    ∧ (processListings listings p).length
        = min (p.topN.getD 5) (listings.filter (listingPasses p)).length
    ∧ ((listings.filter (listingPasses p)).length ≤ p.topN.getD 5 →
        List.Perm (processListings listings p) (listings.filter (listingPasses p)))
    ∧ List.IsPrefix (processListings listings p)
        ((listings.filter (listingPasses p)).insertionSort priceLE)
    ∧ processListings demoListings demoParams = [demoListing "a" 10, demoListing "c" 50] := by
  have hperm : List.Perm ((listings.filter (listingPasses p)).insertionSort priceLE)
      (listings.filter (listingPasses p)) :=
    List.perm_insertionSort priceLE _
  have hsorted : List.Sorted priceLE ((listings.filter (listingPasses p)).insertionSort priceLE) :=
    List.sorted_insertionSort priceLE _
  refine ⟨?_, ?_, ?_, ?_, ?_, ?_⟩
  · intro x hx
    have hxs : x ∈ (listings.filter (listingPasses p)).insertionSort priceLE :=
      List.mem_of_mem_take hx
    have hxf : x ∈ listings.filter (listingPasses p) := hperm.mem_iff.mp hxs
    exact List.mem_filter.mp hxf
  · exact hsorted.sublist (List.take_sublist _ _)
  · unfold processListings
    rw [List.length_take, hperm.length_eq]
  · intro hle
    unfold processListings
    rw [List.take_of_length_le (by rw [hperm.length_eq]; exact hle)]
    exact hperm
  · unfold processListings
    exact List.take_prefix _ _
  · with_unfolding_all rfl

/-- Witness for C1: the universally quantified parts applied to the concrete
scenario, with the truncation hypothesis discharged there. -/
theorem process_listings_spec_witness :
    (demoListing "a" 10 ∈ processListings demoListings demoParams →
      demoListing "a" 10 ∈ demoListings ∧ listingPasses demoParams (demoListing "a" 10) = true)
    ∧ ((demoListings.filter (listingPasses demoParams)).length ≤ demoParams.topN.getD 5
        ∧ List.Perm (processListings demoListings demoParams)
            (demoListings.filter (listingPasses demoParams))) :=
  ⟨(process_listings_spec demoListings demoParams).1 (demoListing "a" 10),
    ⟨by with_unfolding_all decide,
      (process_listings_spec demoListings demoParams).2.2.2.1 (by with_unfolding_all decide)⟩⟩

/-- C2 counterexample: an enabled interval task with `value = 3600` seconds
whose last run was 600 seconds ago fires (the code ignores the interval
value), although 600 < 3600, refuting "fire iff now − last_run ≥ value". -/
theorem interval_claim_counterexample :
    shouldRunTask (fun t => t + 1) (mkSchedule "interval" (some (.pnum 3600)))
        (some 9400) 10000 = true
    ∧ ((10000 : ℤ) - 9400 < 3600) := by
  constructor
  · with_unfolding_all rfl
  · decide

/-- C2 (amended): for an interval-schedule task, `_should_run_task` fires
iff the 5-minute re-run guard passes and the schedule value (default 3600)
parses as an int — the configured interval length itself is ignored
(`_check_interval_schedule` returns `True` unconditionally), and a first
run with no recorded `last_run` fires immediately. -/
theorem interval_fires_iff_guard (nextTick : ℤ → ℤ) (value : Option PyVal)
    (lastRun : Option ℤ) (now : ℤ) :
    shouldRunTask nextTick (mkSchedule "interval" value) lastRun now =
      (rerunGuardPasses lastRun now &&
        (pyInt (dictGetD (mkSchedule "interval" value) "value" (.pnum 3600))).isSome) := by
  cases value with
  | none =>
      cases lastRun with
      | none =>
          simp [shouldRunTask, rerunGuardPasses, mkSchedule, dictGetD, pyEqStr,
            checkIntervalSchedule]
      | some lr =>
          simp only [shouldRunTask, rerunGuardPasses, mkSchedule, dictGetD, pyEqStr,
            checkIntervalSchedule, minRerunGuardSeconds]
          by_cases h : now - lr < 300
          · simp [h, (by omega : ¬ (300 ≤ now - lr))]
          · simp [h, (by omega : (300 ≤ now - lr))]
  | some v =>
      cases lastRun with
      | none =>
          simp [shouldRunTask, rerunGuardPasses, mkSchedule, dictGetD, pyEqStr,
            checkIntervalSchedule]
      | some lr =>
          simp only [shouldRunTask, rerunGuardPasses, mkSchedule, dictGetD, pyEqStr,
            checkIntervalSchedule, minRerunGuardSeconds]
          by_cases h : now - lr < 300
          · simp [h, (by omega : ¬ (300 ≤ now - lr))]
          · simp [h, (by omega : (300 ≤ now - lr))]

/-- The half-hour tick function is the least time strictly after its
argument that falls on minute 30 of an hour, so it is a faithful
`croniter.get_next` for the cron expression `30 * * * *`. -/
theorem halfHourTick_is_next (t : ℤ) :
    t < halfHourTick t ∧ halfHourTick t % 3600 = 1800
    ∧ ∀ x : ℤ, t < x → x % 3600 = 1800 → halfHourTick t ≤ x := by
  unfold halfHourTick
  refine ⟨by omega, by omega, fun x hx hmod => by omega⟩

/-- C3 counterexample: a cron task on `30 * * * *` whose recorded last run
is 10:31 (epoch 37860) at wakeup 10:40 (epoch 38400) fires — the code bases
the cron check on `now − 1h`, not on the recorded `last_run` — although the
next tick after the recorded last run is 11:30 (epoch 41400) > now,
refuting "fire iff the next tick after last_run is ≤ now". -/
theorem cron_claim_counterexample :
    shouldRunTask halfHourTick (mkSchedule "cron" (some (.pstr "30 * * * *")))
        (some 37860) 38400 = true
    ∧ ¬ (halfHourTick 37860 ≤ 38400) := by
  constructor
  · with_unfolding_all rfl
  · decide

/-- C3 (amended): for a cron-schedule task, `_should_run_task` fires iff
the 5-minute re-run guard passes, the cron expression is truthy, and the
next cron tick strictly after `now − 1 hour` (the source's MVP
approximation of the last run, not the recorded `last_run`) is ≤ `now`. -/
theorem cron_fires_iff_approx (nextTick : ℤ → ℤ) (expr : PyVal)
    (lastRun : Option ℤ) (now : ℤ) :
    shouldRunTask nextTick (mkSchedule "cron" (some expr)) lastRun now =
      (rerunGuardPasses lastRun now && truthy expr &&
        decide (nextTick (now - 3600) ≤ now)) := by
  cases lastRun with
  | none =>
      simp [shouldRunTask, rerunGuardPasses, mkSchedule, dictGetD, dictGet, pyEqStr,
        checkCronSchedule, Bool.and_assoc]
  | some lr =>
      simp only [shouldRunTask, rerunGuardPasses, mkSchedule, dictGetD, dictGet, pyEqStr,
        checkCronSchedule, minRerunGuardSeconds]
      by_cases h : now - lr < 300
      · simp [h, (by omega : ¬ (300 ≤ now - lr))]
      · simp [h, (by omega : (300 ≤ now - lr)), Bool.and_assoc]

/-- C4: whenever a task's recorded `last_run` is less than 5 minutes before
the wakeup time, `_should_run_task` returns false whatever the schedule, so
two wakeups within 5 minutes of a recorded run never fire the same task
twice. -/
theorem min_rerun_guard_blocks (nextTick : ℤ → ℤ)
    (schedule : List (String × PyVal)) (lr now : ℤ)
    (h : now - lr < 300) :
    shouldRunTask nextTick schedule (some lr) now = false := by
  simp [shouldRunTask, minRerunGuardSeconds, h]

/-- Witness for C4: a task that ran 60 seconds before the wakeup is not
fired again. -/
theorem min_rerun_guard_blocks_witness :
    ((160 : ℤ) - 100 < 300)
    ∧ shouldRunTask (fun t => t + 1) (mkSchedule "interval" (some (.pnum 60)))
        (some 100) 160 = false :=
  ⟨by decide,
    min_rerun_guard_blocks (fun t => t + 1) (mkSchedule "interval" (some (.pnum 60)))
      100 160 (by decide)⟩

/-- C5: in every state of the scheduler loop reachable from the start
state, the in-flight task ids are pairwise distinct (at most one in-flight
execution per task id) and a pending submission is for an id that is not
in flight — the loop's membership test makes re-submission impossible, and
entries leave `active_futures` only when their execution finishes. -/
theorem scheduler_single_inflight (fire : String → Prop) (s : SchedState)
    (h : SchedReachable fire s) :
    s.inFlight.Nodup ∧ ∀ id, s.pending = some id → id ∉ s.inFlight := by
  induction h with
  | init => exact ⟨List.nodup_nil, by simp⟩
  | step hr hstep ih =>
      cases hstep with
      | check id hp hnin hf =>
          refine ⟨ih.1, fun j hj => ?_⟩
          obtain rfl : id = j := Option.some.inj hj
          exact hnin
      | submit id hp =>
          refine ⟨?_, by simp⟩
          have hid := ih.2 id hp
          exact List.nodup_append.mpr
            ⟨ih.1, List.nodup_singleton id,
              fun a ha hb => by
                rw [List.mem_singleton.mp hb] at ha
                exact hid ha⟩
      | finish id hin =>
          exact ⟨ih.1.erase id,
            fun j hj hmem => ih.2 j hj (List.mem_of_mem_erase hmem)⟩

/-- Witness for C5: the invariant instantiated on the concrete reachable
state in which task `t1` was checked and then submitted. -/
theorem scheduler_single_inflight_witness :
    (SchedState.mk ["t1"] none).inFlight.Nodup
    ∧ ∀ id, (SchedState.mk ["t1"] none).pending = some id →
        id ∉ (SchedState.mk ["t1"] none).inFlight :=
  scheduler_single_inflight (fun _ => True) ⟨["t1"], none⟩
    (SchedReachable.step
      (SchedReachable.step SchedReachable.init
        (SchedStep.check ⟨[], none⟩ "t1" rfl (by simp) trivial))
      (SchedStep.submit ⟨[], some "t1"⟩ "t1" rfl))

/-- C6 counterexample: with capacity 0 and a fresh conversation id, the
call fails with a plain `RuntimeError("Maximum concurrent conversations
reached")`, not with `CapacityError`, refuting the claimed error kind (the
adapter never raises `CapacityError`; the name exists only in the spec's
taxonomy). -/
theorem start_conversation_capacity_counterexample :
    (startConversation (⟨0, []⟩ : AdapterState Unit) "preset" "topic" "user-1" "conv-1"
        (.ok ())).1
      = .error (.runtimeError "Maximum concurrent conversations reached")
    ∧ (startConversation (⟨0, []⟩ : AdapterState Unit) "preset" "topic" "user-1" "conv-1"
        (.ok ())).1
      ≠ .error .capacityError := by
  constructor
  · rfl
  · intro h
    rw [show (startConversation (⟨0, []⟩ : AdapterState Unit) "preset" "topic" "user-1" "conv-1"
        (.ok ())).1 = .error (.runtimeError "Maximum concurrent conversations reached")
      from rfl] at h
    exact absurd (Except.error.inj h) (by decide)

/-- C6 (amended): `start_conversation` with an explicit conversation id
fails with `ConversationAlreadyExistsError` on a duplicate id, with a plain
`RuntimeError` (not `CapacityError`) when the conversation count has
reached `max_concurrent_conversations`, and with `InvalidPresetError` when
preset initialization fails; in every failure case the conversation map is
unchanged, and the duplicate-id check precedes the capacity check. -/
theorem start_conversation_errors {Lab : Type} (st : AdapterState Lab)
    (presetId topic userId conversationId : String) (initRes : InitOutcome Lab) :
    (st.conversations.any (fun kv => kv.1 == conversationId) = true →
      startConversation st presetId topic userId conversationId initRes
        = (.error .conversationAlreadyExists, st))
    ∧ (st.conversations.any (fun kv => kv.1 == conversationId) = false →
       st.maxConcurrentConversations ≤ st.conversations.length →
      startConversation st presetId topic userId conversationId initRes
        = (.error (.runtimeError "Maximum concurrent conversations reached"), st))
    ∧ (st.conversations.any (fun kv => kv.1 == conversationId) = false →
       st.conversations.length < st.maxConcurrentConversations →
       initRes = .failed →
      startConversation st presetId topic userId conversationId initRes
        = (.error .invalidPreset, st)) := by
  refine ⟨fun hdup => ?_, fun hdup hcap => ?_, fun hdup hcap hinit => ?_⟩
  · simp [startConversation, hdup]
  · simp [startConversation, hdup, hcap]
  · subst hinit
    simp [startConversation, hdup, hcap,
      (by omega : ¬ st.maxConcurrentConversations ≤ st.conversations.length)]

/-- Witness for C6 (amended): at capacity 0 with an empty conversation map
and a fresh id, the call returns the plain runtime error and leaves the map
empty. -/
theorem start_conversation_errors_witness :
    (([] : List (String × ConversationState Unit)).any (fun kv => kv.1 == "conv-1") = false)
    ∧ ((0 : ℕ) ≤ ([] : List (String × ConversationState Unit)).length)
    ∧ startConversation (⟨0, []⟩ : AdapterState Unit) "preset" "topic" "user-1" "conv-1" (.ok ())
        = (.error (.runtimeError "Maximum concurrent conversations reached"), ⟨0, []⟩) :=
  ⟨rfl, by decide,
    (start_conversation_errors (⟨0, []⟩ : AdapterState Unit) "preset" "topic" "user-1" "conv-1"
        (.ok ())).2.1 rfl (by decide)⟩

/-- C7: `can_resume_conversation` is true exactly when the checkpoint load
returns a non-empty dict snapshot that has no `_pickled` marker key; an
opaque snapshot, a missing checkpoint (`None`) or a raising load all yield
false. -/
theorem can_resume_iff (r : LoadResult) :
    canResumeConversation r = true ↔
      ∃ d, r = .value (.pdict d) ∧ d ≠ [] ∧ dictHasKey d "_pickled" = false := by
  cases r with
  | raised => simp [canResumeConversation]
  | value v =>
      cases v with
      | pdict d =>
          simp only [canResumeConversation, Bool.and_eq_true, Bool.not_eq_true']
          constructor
          · rintro ⟨hne, hnk⟩
            exact ⟨d, rfl, by simpa [List.isEmpty_iff] using hne, hnk⟩
          · rintro ⟨d2, heq, hne, hnk⟩
            obtain rfl : d = d2 := by
              injection heq with h1
              injection h1
            exact ⟨by simpa [List.isEmpty_iff] using hne, hnk⟩
      | pstr s => simp [canResumeConversation]
      | pnum q => simp [canResumeConversation]
      | plist l => simp [canResumeConversation]
      | pbool b => simp [canResumeConversation]
      | pnone => simp [canResumeConversation]

/-- C8: a user-node turn emits a `role="user"` output whose content is the
message dequeued by `state.pop_user_input(self.cfg.id)` (the empty string
when the queue yields nothing), and the result does not depend on the
provider or the tools — the node makes no provider or tool call. -/
theorem user_node_emits_queue_head (Provider Tool : Type) (cfg : UserCfg)
    (p p2 : Option Provider) (tl tl2 : List (String × Tool)) (st : UserQueues) :
    (userNodeCall ⟨cfg, p, tl⟩ st).1.role = "user"
    ∧ (userNodeCall ⟨cfg, p, tl⟩ st).1.content = ((popUserInput st cfg.id).1).getD ""
    ∧ userNodeCall ⟨cfg, p, tl⟩ st = userNodeCall ⟨cfg, p2, tl2⟩ st :=
  ⟨rfl, rfl, rfl⟩

end AgentryLab
